import Mathlib

/-!
Shallow embedding of `baidupcs_py/app/account.py` (the account registry of
BaiduPCS-Py): the `Account` and `AccountManager` entities, their operations
(`who`, `set_encrypt_key`, `cd`, `update`, `su`, `useradd`, `userdel`,
`save`, `load_data`) and the compatibility-migration pass `_compat_v0_5_9`.

Modelling conventions:
- Python `dict` becomes an insertion-ordered association list with unique
  keys; `d.get`, `d[k] = v`, `del d[k]` become `dGet`, `dSet`, `dDel`.
- Python truthiness of `int`/`None` and `str`/`None` values (`x or y`,
  `if x:`, `assert x`) is modelled by `pyTruthy` / `pyTruthyS`: `None`, `0`
  and `""` are falsy.
- Exceptions become `Except PyErr`; `assert` raises `PyErr.assertionError`.
- The filesystem is a journal of writes (newest first) from path to file
  content; pickled bytes are either a serialized `AccountManager` or
  `garbage` (bytes that fail to unpickle).
- The external network client (`BaiduPCSApi.user_info`) is an oracle
  `fetch : Int → Except PyErr PcsUser`; `Account.pcsapi`'s `assert auth`
  is the `auth.isSome` check inside `update`.
-/

deriving instance DecidableEq for Except

/-- Python truthiness of an optional integer: `None` and `0` are falsy. -/
def pyTruthy : Option Int → Bool
  | none => false
  | some i => if i = 0 then false else true

/-- Python truthiness of an optional string: `None` and `""` are falsy. -/
def pyTruthyS : Option String → Bool
  | none => false
  | some s => if s = "" then false else true

/-- Python `user_id = user_id or self._who; if user_id:` — the id an operation
acts on, `none` when the resolved value is falsy. -/
def resolveTarget (given who : Option Int) : Option Int :=
  if pyTruthy given then given
  else if pyTruthy who then who
  else none

/-- Python `dict.get`: first binding of the key, if any. -/
def dGet {κ α : Type} [DecidableEq κ] : List (κ × α) → κ → Option α
  | [], _ => none
  | (k, v) :: rest, j => if k = j then some v else dGet rest j

/-- Python `key in dict`. -/
def dMem {κ α : Type} [DecidableEq κ] : List (κ × α) → κ → Bool
  | [], _ => false
  | (k, _) :: rest, j => if k = j then true else dMem rest j

/-- Replace the value bound to a key, keeping its position. -/
def dReplace {κ α : Type} [DecidableEq κ] : List (κ × α) → κ → α → List (κ × α)
  | [], _, _ => []
  | (k, w) :: rest, j, v =>
    if k = j then (k, v) :: dReplace rest j v else (k, w) :: dReplace rest j v

/-- Python `dict[k] = v`: replace in place when the key exists (Python dicts keep
insertion order), append otherwise. -/
def dSet {κ α : Type} [DecidableEq κ] (d : List (κ × α)) (j : κ) (v : α) :
    List (κ × α) :=
  if dMem d j then dReplace d j v else d ++ [(j, v)]

/-- Python `del dict[k]`. -/
def dDel {κ α : Type} [DecidableEq κ] : List (κ × α) → κ → List (κ × α)
  | [], _ => []
  | (k, w) :: rest, j => if k = j then dDel rest j else (k, w) :: dDel rest j

/-- Modelled from the spec: the auth material inside an Identity Record
(`PcsAuth` of `baidupcs_py.baidupcs`, whose definition is not among the
modelled sources; `account.py` only reads `bduss`, `stoken`, `ptoken`,
`cookies` from it and tests it for `None`). -/
structure PcsAuth where
  bduss : String
  stoken : Option String
  ptoken : Option String
deriving DecidableEq, Repr

/-- Modelled from the spec: the Identity Record (`PcsUser` of
`baidupcs_py.baidupcs`, not among the modelled sources). `account.py` uses
its stable numeric `user_id`, its optional `auth` material, and the shape of
its `products` field: in data persisted by versions before v0.5.9 `products`
is a generic dict (`products_is_dict = true`); the current shape is not a
dict. -/
structure PcsUser where
  user_id : Int
  auth : Option PcsAuth
  products_is_dict : Bool
deriving DecidableEq, Repr

/-- Entity `Account`: an Identity Record plus local session state. Defaults on
construction are `pwd = "/"`, no encryption key, no salt. -/
structure Account where
  user : PcsUser
  pwd : String
  encrypt_key : Option String
  salt : Option String
deriving DecidableEq, Repr

/-- Python `account._replace(encrypt_key=..., salt=...)`: copy with those two
fields replaced. -/
def Account.replaceEncrypt (a : Account) (k s : Option String) : Account :=
  { a with encrypt_key := k, salt := s }

/-- Python `account._replace(pwd=...)`: copy with the working directory replaced. -/
def Account.replacePwd (a : Account) (p : String) : Account :=
  { a with pwd := p }

/-- Python `account._replace(user=...)`: copy with the Identity Record replaced. -/
def Account.replaceUser (a : Account) (u : PcsUser) : Account :=
  { a with user := u }

/-- Source `AccountManager.__init__`: `_accounts : dict[int, Account]`,
`_who : Optional[int]`, `_data_path : Optional[PathLike]`. -/
structure AccountManager where
  _accounts : List (Int × Account)
  _who : Option Int
  _data_path : Option String
deriving DecidableEq, Repr

/-- Source `AccountManager(data_path=p)`: empty accounts, no recent user. -/
def AccountManager.init (data_path : Option String) : AccountManager :=
  AccountManager.mk [] none data_path

/-- What `pickle.load` recovers from a file: a serialized `AccountManager`,
or bytes that fail to deserialize. -/
inductive FileContent where
  | garbage
  | pickled (am : AccountManager)
deriving DecidableEq, Repr

/-- The filesystem: a journal of writes, newest first. -/
abbrev FS := List (String × FileContent)

/-- Whole-file overwrite (`open(path, "wb")` + `pickle.dump`). -/
def fsWrite (fs : FS) (p : String) (c : FileContent) : FS := (p, c) :: fs

/-- Python exceptions surfaced by this module. -/
inductive PyErr where
  | assertionError (msg : String)
  | networkError
deriving DecidableEq, Repr

/-- Python `Path(p).expanduser()`: replace a leading `~` by the home directory
(the `~user` form is not modelled). Defined over the character list so that
it evaluates by kernel reduction. -/
def expanduser (home p : String) : String :=
  match p.data with
  | ['~'] => home
  | '~' :: '/' :: rest => home ++ String.mk ('/' :: rest)
  | _ => p

/-- Modelled from the spec: the process-wide default account-data path
(`ACCOUNT_DATA_PATH` of `baidupcs_py.commands.env`, not among the modelled
sources). Only its being a fixed non-empty path matters here. -/
def ACCOUNT_DATA_PATH : String := "~/.baidupcs-py/accounts.pkl"

/-- One step of segment normalization: `.` is dropped, `..` pops. -/
def normStep (acc : List String) (seg : String) : List String :=
  if seg = "." then acc
  else if seg = ".." then acc.dropLast
  else acc ++ [seg]

/-- Modelled from the spec: `join_path` of `baidupcs_py.common.path` (not
among the modelled sources): join a base directory with a relative or
absolute path, normalizing `.` and `..` segments; an absolute second
argument overrides the base. -/
def join_path (base rel : String) : String :=
  let baseSegs :=
    if rel.startsWith "/" then []
    else (base.splitOn "/").filter (fun s => s ≠ "")
  let segs :=
    (baseSegs ++ (rel.splitOn "/").filter (fun s => s ≠ "")).foldl normStep []
  "/" ++ String.intercalate "/" segs

/-- Source `AccountManager.who`: `user_id = user_id or self._who`; if the result is
truthy, look it up, else return `None`. -/
def AccountManager.who (am : AccountManager) (user_id : Option Int) :
    Option Account :=
  match resolveTarget user_id am._who with
  | some uid => dGet am._accounts uid
  | none => none

/-- Source `AccountManager.set_encrypt_key`: `assert self._who`, look up the
recent account (`assert account`), replace its `encrypt_key` and `salt`. -/
def AccountManager.set_encrypt_key (am : AccountManager)
    (encrypt_key salt : Option String) : Except PyErr AccountManager :=
  if pyTruthy am._who then
    match dGet am._accounts (am._who.getD 0) with
    | some account =>
      let account2 := account.replaceEncrypt encrypt_key salt
      .ok { am with _accounts := dSet am._accounts (am._who.getD 0) account2 }
    | none => .error (.assertionError "account is None")
  else .error (.assertionError "No recent user")

/-- Source `AccountManager.cd`: `assert self._who`, look up the recent account,
replace its `pwd` by `join_path(account.pwd, remotedir)`. -/
def AccountManager.cd (am : AccountManager) (remotedir : String) :
    Except PyErr AccountManager :=
  if pyTruthy am._who then
    match dGet am._accounts (am._who.getD 0) with
    | some account =>
      let account2 := account.replacePwd (join_path account.pwd remotedir)
      .ok { am with _accounts := dSet am._accounts (am._who.getD 0) account2 }
    | none => .error (.assertionError "account is None")
  else .error (.assertionError "No recent user")

/-- Source `AccountManager.update`: resolve the target id (`user_id or self._who`,
then a truthiness test); silently return when it is falsy or unregistered;
otherwise `account.pcsapi()` (which asserts `auth` is present), fetch fresh
user info from the network (`fetch`), and replace only the `user` field.
Also returns the list of ids actually fetched (for the migration count). -/
def AccountManager.update (fetch : Int → Except PyErr PcsUser)
    (am : AccountManager) (user_id : Option Int) :
    Except PyErr (AccountManager × List Int) :=
  match resolveTarget user_id am._who with
  | none => .ok (am, [])
  | some uid =>
    match dGet am._accounts uid with
    | none => .ok (am, [])
    | some account =>
      if account.user.auth.isSome then
        match fetch uid with
        | .error e => .error e
        | .ok user =>
          let account2 := account.replaceUser user
          .ok ({ am with _accounts := dSet am._accounts uid account2 }, [uid])
      else .error (.assertionError "auth is None")

/-- Source `AccountManager.su`: `assert user_id in self._accounts`, then set the
recent user. -/
def AccountManager.su (am : AccountManager) (user_id : Int) :
    Except PyErr AccountManager :=
  if dMem am._accounts user_id then .ok { am with _who := some user_id }
  else .error (.assertionError "No user")

/-- Source `AccountManager.useradd`: insert or overwrite the account keyed by the
user's id with a fresh `Account` (pwd `/`, no encryption). -/
def AccountManager.useradd (am : AccountManager) (user : PcsUser) :
    AccountManager :=
  let fresh := Account.mk user "/" none none
  { am with _accounts := dSet am._accounts user.user_id fresh }

/-- Source `AccountManager.userdel`: delete the entry if present; clear `_who`
when `user_id == self._who`. -/
def AccountManager.userdel (am : AccountManager) (user_id : Int) :
    AccountManager :=
  { am with
      _accounts :=
        if dMem am._accounts user_id then dDel am._accounts user_id
        else am._accounts,
      _who := if am._who = some user_id then none else am._who }

/-- Source `AccountManager.save`: `data_path = data_path or self._data_path`,
`assert data_path`, ensure the parent directory (directories are implicit in
the flat filesystem model), then overwrite the expanded path with a pickle
of the whole manager. -/
def AccountManager.save (am : AccountManager) (data_path : Option String)
    (home : String) (fs : FS) : Except PyErr FS :=
  let dp := if pyTruthyS data_path then data_path else am._data_path
  if pyTruthyS dp then
    .ok (fsWrite fs (expanduser home (dp.getD "")) (FileContent.pickled am))
  else .error (.assertionError "No data path")

/-- Whether the account stored under `uid` is legacy-shaped
(`isinstance(account.user.products, dict)`). -/
def legacyB (am : AccountManager) (uid : Int) : Bool :=
  match dGet am._accounts uid with
  | some account => account.user.products_is_dict
  | none => false

/-- The scan-and-upgrade loop of `_compat_v0_5_9`:
`for user_id, account in am._accounts.items(): if isinstance(account.user.
products, dict): am.update(user_id)`. The key list is fixed up front (the
loop never adds or removes keys); each key's account is read at its turn. -/
def compatScan (fetch : Int → Except PyErr PcsUser) (keys : List Int)
    (am : AccountManager) : Except PyErr (AccountManager × List Int) :=
  match keys with
  | [] => .ok (am, [])
  | uid :: rest =>
    if legacyB am uid then
      match AccountManager.update fetch am (some uid) with
      | .error e => .error e
      | .ok (am2, r) =>
        match compatScan fetch rest am2 with
        | .error e => .error e
        | .ok (am3, rs) => .ok (am3, r ++ rs)
    else compatScan fetch rest am

/-- Source `_compat_v0_5_9`: scan-and-upgrade, then backfill `_data_path` with the
default when it is falsy or the file it names does not exist, then always
`am.save()`. Returns the updated manager, the filesystem after the final
save, and the ids that were actually re-fetched. -/
def _compat_v0_5_9 (fetch : Int → Except PyErr PcsUser) (home : String)
    (am : AccountManager) (fs : FS) :
    Except PyErr (AccountManager × FS × List Int) :=
  match compatScan fetch (am._accounts.map Prod.fst) am with
  | .error e => .error e
  | .ok (am1, rs) =>
    let keep := pyTruthyS am1._data_path &&
      (dGet fs (am1._data_path.getD "")).isSome
    let am2 :=
      if keep then am1 else { am1 with _data_path := some ACCOUNT_DATA_PATH }
    match am2.save none home fs with
    | .error e => .error e
    | .ok fs2 => .ok (am2, fs2, rs)

/-- Source `_compat_account_manager`: run the version upgrades. -/
def _compat_account_manager (fetch : Int → Except PyErr PcsUser)
    (home : String) (am : AccountManager) (fs : FS) :
    Except PyErr (AccountManager × FS × List Int) :=
  _compat_v0_5_9 fetch home am fs

/-- Source `AccountManager.load_data`: expand the path, unpickle, run the
compatibility pass; ANY exception along the way (missing file, garbage
bytes, or an error raised inside the compatibility pass) is caught and a
brand-new empty manager bound to the expanded path is returned. The third
component is the list of ids re-fetched by a successful migration pass. -/
def AccountManager.load_data (fetch : Int → Except PyErr PcsUser)
    (home : String) (fs : FS) (data_path : String) :
    AccountManager × FS × List Int :=
  let p := expanduser home data_path
  match dGet fs p with
  | some (.pickled am) =>
    match _compat_account_manager fetch home am fs with
    | .ok (am2, fs2, rs) => (am2, fs2, rs)
    | .error _ => (AccountManager.init (some p), fs, [])
  | _ => (AccountManager.init (some p), fs, [])

/-! ### Association-list lemmas -/

theorem dGet_append {κ α : Type} [DecidableEq κ] (d1 d2 : List (κ × α))
    (i : κ) :
    dGet (d1 ++ d2) i =
      match dGet d1 i with
      | some v => some v
      | none => dGet d2 i := by
  induction d1 with
  | nil => simp [dGet]
  | cons hd tl ih =>
    obtain ⟨k, v⟩ := hd
    by_cases h : k = i <;> simp [dGet, h, ih]

theorem dGet_of_not_mem {κ α : Type} [DecidableEq κ] (d : List (κ × α))
    (j : κ) (h : dMem d j = false) : dGet d j = none := by
  induction d with
  | nil => simp [dGet]
  | cons hd tl ih =>
    obtain ⟨k, v⟩ := hd
    by_cases hk : k = j
    · simp [dMem, hk] at h
    · simp [dGet, dMem, hk] at h ⊢
      exact ih h

theorem dGet_mem {κ α : Type} [DecidableEq κ] (d : List (κ × α)) (k : κ)
    (a : α) (h : dGet d k = some a) : (k, a) ∈ d := by
  induction d with
  | nil => simp [dGet] at h
  | cons hd tl ih =>
    obtain ⟨k0, v0⟩ := hd
    by_cases hk : k0 = k
    · subst hk
      simp [dGet] at h
      subst h
      exact List.mem_cons_self _ _
    · simp [dGet, hk] at h
      exact List.mem_cons_of_mem _ (ih h)

theorem dGet_dReplace_self {κ α : Type} [DecidableEq κ] (d : List (κ × α))
    (j : κ) (v : α) (h : dMem d j = true) :
    dGet (dReplace d j v) j = some v := by
  induction d with
  | nil => simp [dMem] at h
  | cons hd tl ih =>
    obtain ⟨k, w⟩ := hd
    by_cases hk : k = j
    · simp [dReplace, dGet, hk]
    · simp [dMem, hk] at h
      simp [dReplace, dGet, hk]
      exact ih h

theorem dGet_dReplace_ne {κ α : Type} [DecidableEq κ] (d : List (κ × α))
    (i j : κ) (v : α) (h : i ≠ j) :
    dGet (dReplace d j v) i = dGet d i := by
  induction d with
  | nil => simp [dReplace]
  | cons hd tl ih =>
    obtain ⟨k, w⟩ := hd
    by_cases hk : k = j
    · subst hk
      have hki : ¬ k = i := fun hh => h (hh ▸ rfl)
      simp [dReplace, dGet, hki, ih]
    · simp [dReplace, dGet, hk, ih]

theorem dGet_dSet_self {κ α : Type} [DecidableEq κ] (d : List (κ × α))
    (j : κ) (v : α) : dGet (dSet d j v) j = some v := by
  unfold dSet
  by_cases h : dMem d j
  · simp [h, dGet_dReplace_self d j v h]
  · simp at h
    simp [h, dGet_append, dGet_of_not_mem d j h, dGet]

theorem dGet_dSet_ne {κ α : Type} [DecidableEq κ] (d : List (κ × α))
    (i j : κ) (v : α) (h : i ≠ j) : dGet (dSet d j v) i = dGet d i := by
  unfold dSet
  by_cases hm : dMem d j
  · simp [hm, dGet_dReplace_ne d i j v h]
  · simp at hm
    have hji : ¬ j = i := fun hh => h hh.symm
    simp [hm, dGet_append, dGet, hji]
    cases hdi : dGet d i <;> simp [hdi]

theorem dMem_eq_isSome {κ α : Type} [DecidableEq κ] (d : List (κ × α))
    (j : κ) : dMem d j = (dGet d j).isSome := by
  induction d with
  | nil => simp [dMem, dGet]
  | cons hd tl ih =>
    obtain ⟨k, w⟩ := hd
    by_cases hk : k = j <;> simp [dMem, dGet, hk, ih]

theorem dReplace_keys {κ α : Type} [DecidableEq κ] (d : List (κ × α))
    (j : κ) (v : α) :
    (dReplace d j v).map Prod.fst = d.map Prod.fst := by
  induction d with
  | nil => simp [dReplace]
  | cons hd tl ih =>
    obtain ⟨k, w⟩ := hd
    by_cases hk : k = j <;> simp [dReplace, hk, ih]

theorem dSet_keys_of_mem {κ α : Type} [DecidableEq κ] (d : List (κ × α))
    (j : κ) (v : α) (h : dMem d j = true) :
    (dSet d j v).map Prod.fst = d.map Prod.fst := by
  unfold dSet
  simp [h, dReplace_keys]

theorem dGet_dDel {κ α : Type} [DecidableEq κ] (d : List (κ × α)) (i j : κ) :
    dGet (dDel d j) i = if i = j then none else dGet d i := by
  induction d with
  | nil => simp [dDel, dGet]
  | cons hd tl ih =>
    obtain ⟨k, w⟩ := hd
    by_cases hk : k = j
    · subst hk
      by_cases hik : i = k
      · subst hik
        simp [dDel, ih]
      · have hki : ¬ k = i := fun hh => hik hh.symm
        simp [dDel, dGet, ih, hik, hki]
    · by_cases hik : k = i
      · subst hik
        simp [dDel, dGet, hk, fun hh : k = j => hk hh]
      · simp [dDel, dGet, hk, hik, ih]

theorem dReplace_append {κ α : Type} [DecidableEq κ] (d1 d2 : List (κ × α))
    (j : κ) (v : α) :
    dReplace (d1 ++ d2) j v = dReplace d1 j v ++ dReplace d2 j v := by
  induction d1 with
  | nil => simp [dReplace]
  | cons hd tl ih =>
    obtain ⟨k, w⟩ := hd
    by_cases hk : k = j <;> simp [dReplace, hk, ih]

theorem dReplace_of_not_mem {κ α : Type} [DecidableEq κ] (d : List (κ × α))
    (j : κ) (v : α) (h : dMem d j = false) : dReplace d j v = d := by
  induction d with
  | nil => simp [dReplace]
  | cons hd tl ih =>
    obtain ⟨k, w⟩ := hd
    by_cases hk : k = j
    · simp [dMem, hk] at h
    · simp [dMem, hk] at h
      simp [dReplace, hk, ih h]

theorem dMem_append {κ α : Type} [DecidableEq κ] (d1 d2 : List (κ × α))
    (j : κ) : dMem (d1 ++ d2) j = (dMem d1 j || dMem d2 j) := by
  induction d1 with
  | nil => simp [dMem]
  | cons hd tl ih =>
    obtain ⟨k, w⟩ := hd
    by_cases hk : k = j <;> simp [dMem, hk, ih]

/-! ### Migration-scan lemmas -/

theorem legacyB_false_of_clean (am : AccountManager)
    (hclean : ∀ ka ∈ am._accounts, ka.2.user.products_is_dict = false)
    (k : Int) : legacyB am k = false := by
  unfold legacyB
  cases hdg : dGet am._accounts k with
  | none => rfl
  | some a => exact hclean (k, a) (dGet_mem _ _ _ hdg)

theorem compatScan_clean (fetch : Int → Except PyErr PcsUser)
    (keys : List Int) (am : AccountManager)
    (h : ∀ k ∈ keys, legacyB am k = false) :
    compatScan fetch keys am = .ok (am, []) := by
  induction keys with
  | nil => rfl
  | cons hd tl ih =>
    have hhd : legacyB am hd = false := h hd (List.mem_cons_self _ _)
    simp only [compatScan, hhd]
    simp only [Bool.false_eq_true, if_false]
    exact ih (fun k hk => h k (List.mem_cons_of_mem _ hk))

theorem compatScan_skips_clean_front (fetch : Int → Except PyErr PcsUser)
    (ks1 ks2 : List Int) (am : AccountManager)
    (h : ∀ k ∈ ks1, legacyB am k = false) :
    compatScan fetch (ks1 ++ ks2) am = compatScan fetch ks2 am := by
  induction ks1 with
  | nil => rfl
  | cons hd tl ih =>
    have hhd : legacyB am hd = false := h hd (List.mem_cons_self _ _)
    simp only [List.cons_append, compatScan, hhd]
    simp only [Bool.false_eq_true, if_false]
    exact ih (fun k hk => h k (List.mem_cons_of_mem _ hk))

/-! ### Concrete sample data for witnesses and counterexamples -/

/-- Sample auth material. -/
def sampleAuth : PcsAuth := PcsAuth.mk "bduss" none none

/-- A current-shaped user with id 1. -/
def sampleUserA : PcsUser := PcsUser.mk 1 (some sampleAuth) false

/-- A current-shaped user with id 2. -/
def sampleUserB : PcsUser := PcsUser.mk 2 (some sampleAuth) false

/-- An account wrapping `sampleUserA` with default session state. -/
def sampleAcctA : Account := Account.mk sampleUserA "/" none none

/-- An account wrapping `sampleUserB` with non-default session state. -/
def sampleAcctB : Account := Account.mk sampleUserB "/b" (some "k") (some "s")

/-- An account registered under the identifier 0. -/
def sampleAcct0 : Account :=
  Account.mk (PcsUser.mk 0 (some sampleAuth) false) "/" none none

/-- A current-shaped user with id 5 (pre-refresh state). -/
def cexUserOld : PcsUser := PcsUser.mk 5 (some sampleAuth) false

/-- A distinct user value, as returned by a refresh. -/
def cexUserNew : PcsUser := PcsUser.mk 5 none false

/-- An account with local session state, registered under 5. -/
def cexAcct : Account := Account.mk cexUserOld "/w" (some "ek") (some "sa")

/-- A network oracle that always answers `cexUserNew`. -/
def cexFetch : Int → Except PyErr PcsUser := fun _ => .ok cexUserNew

/-! ### C10 -/

/-- C10: `useradd` never changes the active identifier: after `useradd` the
active identifier is exactly what it was before, and after adding the first
account to an empty Registry `who()` still returns nothing. -/
theorem c10_useradd_preserves_active :
    (∀ (am : AccountManager) (user : PcsUser),
      (am.useradd user)._who = am._who) ∧
    (∀ (p : Option String) (user : PcsUser),
      ((AccountManager.init p).useradd user).who none = none) := by
  constructor
  · intro am user
    rfl
  · intro p user
    rfl

/-! ### C9 -/

/-- C9 counterexample: with account 5 registered and active, `who(0)` does
not return "nothing for the unregistered id 0" — Python's `user_id or
self._who` treats 0 as omitted, so it returns account 5. -/
theorem c9_who_zero_cex :
    (AccountManager.mk [(5, cexAcct)] (some 5) none).who (some 0) =
      some cexAcct ∧
    dGet (AccountManager.mk [(5, cexAcct)] (some 5) none)._accounts 0 =
      none := by
  exact ⟨rfl, rfl⟩

/-- C9 amended: `who(id)` returns the account registered under a nonzero
`id` (nothing if unregistered); `who(0)` behaves exactly like `who()` with
the id omitted; `who()` returns the active account when the active
identifier is set and nonzero, and nothing when it is unset or 0. The
Registry is not modified (`who` is a pure query in this embedding). -/
theorem c9_who_behavior (am : AccountManager) (i : Int) :
    (i ≠ 0 → am.who (some i) = dGet am._accounts i) ∧
    (am.who (some 0) = am.who none) ∧
    (am._who = none → am.who none = none) ∧
    (∀ w, w ≠ 0 → am._who = some w → am.who none = dGet am._accounts w) ∧
    (am._who = some 0 → am.who none = none) := by
  refine ⟨?_, ?_, ?_, ?_, ?_⟩
  · intro h
    simp [AccountManager.who, resolveTarget, pyTruthy, h]
  · simp [AccountManager.who, resolveTarget, pyTruthy]
  · intro h
    simp [AccountManager.who, resolveTarget, pyTruthy, h]
  · intro w hw h
    simp [AccountManager.who, resolveTarget, pyTruthy, h, hw]
  · intro h
    simp [AccountManager.who, resolveTarget, pyTruthy, h]

/-- C9 witness: the amended behavior evaluated on concrete registries. -/
theorem c9_who_behavior_witness :
    (AccountManager.mk [(5, cexAcct)] (some 5) none).who (some 5) =
      dGet (AccountManager.mk [(5, cexAcct)] (some 5) none)._accounts 5 ∧
    (AccountManager.init none).who none = none ∧
    (AccountManager.mk [(5, cexAcct)] (some 5) none).who none =
      dGet (AccountManager.mk [(5, cexAcct)] (some 5) none)._accounts 5 :=
  ⟨(c9_who_behavior (AccountManager.mk [(5, cexAcct)] (some 5) none) 5).1
      (by decide),
   (c9_who_behavior (AccountManager.init none) 1).2.2.1 rfl,
   (c9_who_behavior (AccountManager.mk [(5, cexAcct)] (some 5) none)
      1).2.2.2.1 5 (by decide) rfl⟩

/-! ### C8 -/

/-- C8: after `userdel` of the active identifier, `who()` returns nothing;
`userdel` of a registered non-active identifier deletes that entry, leaves
the active identifier unchanged, and leaves every other entry unchanged. -/
theorem c8_userdel_behavior (am : AccountManager) (i : Int) :
    (am._who = some i → (am.userdel i).who none = none) ∧
    ((dGet am._accounts i).isSome = true → am._who ≠ some i →
      dGet (am.userdel i)._accounts i = none ∧
      (am.userdel i)._who = am._who ∧
      ∀ j, j ≠ i → dGet (am.userdel i)._accounts j = dGet am._accounts j) := by
  constructor
  · intro h
    have hw : (am.userdel i)._who = none := by
      simp [AccountManager.userdel, h]
    simp [AccountManager.who, resolveTarget, pyTruthy, hw]
  · intro hmem hne
    have hm : dMem am._accounts i = true := by
      rw [dMem_eq_isSome]
      exact hmem
    refine ⟨?_, ?_, ?_⟩
    · simp [AccountManager.userdel, hm, dGet_dDel]
    · simp [AccountManager.userdel, fun hh : am._who = some i => hne hh]
    · intro j hj
      simp [AccountManager.userdel, hm, dGet_dDel, hj]

/-- C8 witness: both branches evaluated on a concrete two-account
registry. -/
theorem c8_userdel_behavior_witness :
    ((AccountManager.mk [(1, sampleAcctA), (2, sampleAcctB)] (some 1)
        none).userdel 1).who none = none ∧
    dGet ((AccountManager.mk [(1, sampleAcctA), (2, sampleAcctB)] (some 1)
        none).userdel 2)._accounts 2 = none ∧
    ((AccountManager.mk [(1, sampleAcctA), (2, sampleAcctB)] (some 1)
        none).userdel 2)._who = some 1 ∧
    dGet ((AccountManager.mk [(1, sampleAcctA), (2, sampleAcctB)] (some 1)
        none).userdel 2)._accounts 1 =
      dGet (AccountManager.mk [(1, sampleAcctA), (2, sampleAcctB)] (some 1)
        none)._accounts 1 :=
  ⟨(c8_userdel_behavior
      (AccountManager.mk [(1, sampleAcctA), (2, sampleAcctB)] (some 1) none)
      1).1 rfl,
   ((c8_userdel_behavior
      (AccountManager.mk [(1, sampleAcctA), (2, sampleAcctB)] (some 1) none)
      2).2 rfl (by decide)).1,
   ((c8_userdel_behavior
      (AccountManager.mk [(1, sampleAcctA), (2, sampleAcctB)] (some 1) none)
      2).2 rfl (by decide)).2.1,
   ((c8_userdel_behavior
      (AccountManager.mk [(1, sampleAcctA), (2, sampleAcctB)] (some 1) none)
      2).2 rfl (by decide)).2.2 1 (by decide)⟩

/-! ### C5 -/

/-- C5 counterexample: a Registry whose active identifier 0 is a registered
key — `setEncryption` does not replace that account's fields; the `assert
self._who` treats 0 as "no recent user" and the call fails. -/
theorem c5_set_encrypt_zero_cex :
    (AccountManager.mk [(0, sampleAcct0)] (some 0) none)._who = some 0 ∧
    dMem (AccountManager.mk [(0, sampleAcct0)] (some 0) none)._accounts 0 =
      true ∧
    (AccountManager.mk [(0, sampleAcct0)] (some 0) none).set_encrypt_key
        (some "k") (some "s") =
      .error (.assertionError "No recent user") := by
  exact ⟨rfl, rfl, rfl⟩

/-- C5 amended: for every Registry whose active identifier `u` is a
registered key and nonzero, `setEncryption(k,s)` replaces only account `u`'s
`encrypt_key` and `salt`: account `u` keeps its identity and working
directory, every other account is unchanged, and the key set, active
identifier and storage path are unchanged. -/
theorem c5_set_encrypt_frame (am : AccountManager) (u : Int) (acct : Account)
    (k s : Option String) (hwho : am._who = some u) (h0 : u ≠ 0)
    (hacct : dGet am._accounts u = some acct) :
    am.set_encrypt_key k s =
      .ok { am with
              _accounts := dSet am._accounts u (acct.replaceEncrypt k s) } ∧
    dGet (dSet am._accounts u (acct.replaceEncrypt k s)) u =
      some (acct.replaceEncrypt k s) ∧
    (acct.replaceEncrypt k s).user = acct.user ∧
    (acct.replaceEncrypt k s).pwd = acct.pwd ∧
    (acct.replaceEncrypt k s).encrypt_key = k ∧
    (acct.replaceEncrypt k s).salt = s ∧
    (∀ v, v ≠ u → dGet (dSet am._accounts u (acct.replaceEncrypt k s)) v =
      dGet am._accounts v) ∧
    (dSet am._accounts u (acct.replaceEncrypt k s)).map Prod.fst =
      am._accounts.map Prod.fst := by
  have hm : dMem am._accounts u = true := by
    rw [dMem_eq_isSome, hacct]
    rfl
  refine ⟨?_, dGet_dSet_self _ _ _, rfl, rfl, rfl, rfl, ?_, ?_⟩
  · simp [AccountManager.set_encrypt_key, hwho, pyTruthy, h0, hacct]
  · intro v hv
    exact dGet_dSet_ne _ v u _ hv
  · exact dSet_keys_of_mem _ _ _ hm

/-- C5 witness: the frame property evaluated on a concrete two-account
registry with active identifier 2. -/
theorem c5_set_encrypt_frame_witness :
    (AccountManager.mk [(1, sampleAcctA), (2, sampleAcctB)] (some 2)
        none).set_encrypt_key (some "nk") none =
      .ok { AccountManager.mk [(1, sampleAcctA), (2, sampleAcctB)] (some 2)
              none with
              _accounts := dSet
                (AccountManager.mk [(1, sampleAcctA), (2, sampleAcctB)]
                  (some 2) none)._accounts 2
                (sampleAcctB.replaceEncrypt (some "nk") none) } ∧
    dGet (dSet (AccountManager.mk [(1, sampleAcctA), (2, sampleAcctB)]
        (some 2) none)._accounts 2
        (sampleAcctB.replaceEncrypt (some "nk") none)) 1 =
      dGet (AccountManager.mk [(1, sampleAcctA), (2, sampleAcctB)] (some 2)
        none)._accounts 1 :=
  ⟨(c5_set_encrypt_frame
      (AccountManager.mk [(1, sampleAcctA), (2, sampleAcctB)] (some 2) none)
      2 sampleAcctB (some "nk") none rfl (by decide) rfl).1,
   (c5_set_encrypt_frame
      (AccountManager.mk [(1, sampleAcctA), (2, sampleAcctB)] (some 2) none)
      2 sampleAcctB (some "nk") none rfl (by decide) rfl).2.2.2.2.2.2.1 1
      (by decide)⟩

/-! ### C6 -/

/-- C6 counterexample: calling `refresh(0)` on a Registry whose active
identifier is the registered key 5 — the claim's resolved target is the
given id 0, an unregistered key, so the Registry should be returned
unchanged; the code instead treats the falsy 0 as omitted, refreshes
account 5, and changes it. -/
theorem c6_update_zero_cex :
    AccountManager.update cexFetch
        (AccountManager.mk [(5, cexAcct)] (some 5) none) (some 0) =
      .ok (AccountManager.mk [(5, cexAcct.replaceUser cexUserNew)] (some 5)
        none, [5]) ∧
    dGet (AccountManager.mk [(5, cexAcct)] (some 5) none)._accounts 0 =
      none ∧
    cexAcct.replaceUser cexUserNew ≠ cexAcct := by
  refine ⟨rfl, rfl, by decide⟩

/-- C6 amended: the target of `refresh` is the given id when it is truthy
(non-`None`, nonzero), else the active identifier when truthy, else none.
When the target is none or unregistered the Registry is returned entirely
unchanged; when it is registered (and its auth material is present and the
fetch succeeds) only that account's identity field is replaced, its
working directory, encryption key and salt are preserved, and every other
account is unchanged. -/
theorem c6_update_frame (fetch : Int → Except PyErr PcsUser)
    (am : AccountManager) (given : Option Int) :
    (resolveTarget given am._who = none →
      AccountManager.update fetch am given = .ok (am, [])) ∧
    (∀ uid, resolveTarget given am._who = some uid →
      dGet am._accounts uid = none →
      AccountManager.update fetch am given = .ok (am, [])) ∧
    (∀ uid acct user, resolveTarget given am._who = some uid →
      dGet am._accounts uid = some acct →
      acct.user.auth.isSome = true →
      fetch uid = .ok user →
      AccountManager.update fetch am given =
        .ok ({ am with
                 _accounts := dSet am._accounts uid (acct.replaceUser user) },
          [uid]) ∧
      dGet (dSet am._accounts uid (acct.replaceUser user)) uid =
        some (acct.replaceUser user) ∧
      (acct.replaceUser user).user = user ∧
      (acct.replaceUser user).pwd = acct.pwd ∧
      (acct.replaceUser user).encrypt_key = acct.encrypt_key ∧
      (acct.replaceUser user).salt = acct.salt ∧
      (∀ v, v ≠ uid → dGet (dSet am._accounts uid (acct.replaceUser user)) v =
        dGet am._accounts v)) := by
  refine ⟨?_, ?_, ?_⟩
  · intro h
    simp [AccountManager.update, h]
  · intro uid h hnone
    simp [AccountManager.update, h, hnone]
  · intro uid acct user h hacct hauth hfetch
    refine ⟨?_, dGet_dSet_self _ _ _, rfl, rfl, rfl, rfl, ?_⟩
    · simp [AccountManager.update, h, hacct, hauth, hfetch]
    · intro v hv
      exact dGet_dSet_ne _ v uid _ hv

/-- C6 witness: the three branches of the amended behavior evaluated on
concrete registries. -/
theorem c6_update_frame_witness :
    AccountManager.update cexFetch (AccountManager.init none) none =
      .ok (AccountManager.init none, []) ∧
    AccountManager.update cexFetch (AccountManager.mk [] (some 3) none)
        none = .ok (AccountManager.mk [] (some 3) none, []) ∧
    AccountManager.update cexFetch
        (AccountManager.mk [(5, cexAcct)] (some 5) none) (some 5) =
      .ok ({ AccountManager.mk [(5, cexAcct)] (some 5) none with
               _accounts := dSet
                 (AccountManager.mk [(5, cexAcct)] (some 5) none)._accounts 5
                 (cexAcct.replaceUser cexUserNew) }, [5]) :=
  ⟨(c6_update_frame cexFetch (AccountManager.init none) none).1 rfl,
   (c6_update_frame cexFetch (AccountManager.mk [] (some 3) none) none).2.1
      3 rfl rfl,
   ((c6_update_frame cexFetch (AccountManager.mk [(5, cexAcct)] (some 5)
      none) (some 5)).2.2 5 cexAcct cexUserNew rfl rfl rfl rfl).1⟩

/-! ### C7 -/

/-- The registry invariant: the active identifier, if set, is a key present
in the accounts map. -/
def WhoInv (am : AccountManager) : Prop :=
  ∀ uid, am._who = some uid → (dGet am._accounts uid).isSome = true

/-- C7: the invariant "the active identifier, if set, is a registered key"
holds for the empty Registry and is preserved by `useradd`, `su`,
`userdel`, `set_encrypt_key`, `cd` and `update`; `su` of an unregistered
key fails with an assertion instead of setting it, and `userdel` of the
active key clears the active identifier. -/
theorem c7_active_id_invariant :
    WhoInv (AccountManager.init none) ∧
    (∀ am user, WhoInv am → WhoInv (AccountManager.useradd am user)) ∧
    (∀ am i am2, WhoInv am → AccountManager.su am i = .ok am2 →
      WhoInv am2) ∧
    (∀ am i, dMem am._accounts i = false →
      AccountManager.su am i = .error (.assertionError "No user")) ∧
    (∀ am i, WhoInv am → WhoInv (AccountManager.userdel am i)) ∧
    (∀ am i, am._who = some i → (AccountManager.userdel am i)._who = none) ∧
    (∀ am k s am2, WhoInv am →
      AccountManager.set_encrypt_key am k s = .ok am2 → WhoInv am2) ∧
    (∀ am r am2, WhoInv am → AccountManager.cd am r = .ok am2 →
      WhoInv am2) ∧
    (∀ fetch am given am2 rs, WhoInv am →
      AccountManager.update fetch am given = .ok (am2, rs) →
      WhoInv am2) := by
  refine ⟨?_, ?_, ?_, ?_, ?_, ?_, ?_, ?_, ?_⟩
  · intro uid h
    simp [AccountManager.init] at h
  · intro am user hinv uid h
    simp only [AccountManager.useradd] at h ⊢
    by_cases he : uid = user.user_id
    · rw [he, dGet_dSet_self]
      rfl
    · rw [dGet_dSet_ne _ _ _ _ he]
      exact hinv uid h
  · intro am i am2 hinv hok
    cases hm : dMem am._accounts i with
    | false => simp [AccountManager.su, hm] at hok
    | true =>
      simp [AccountManager.su, hm] at hok
      subst hok
      intro uid h
      simp at h
      subst h
      rw [← dMem_eq_isSome]
      exact hm
  · intro am i h
    simp [AccountManager.su, h]
  · intro am i hinv uid h
    simp only [AccountManager.userdel] at h ⊢
    by_cases hw : am._who = some i
    · rw [if_pos hw] at h
      simp at h
    · rw [if_neg hw] at h
      have hne : uid ≠ i := fun he => hw (he ▸ h)
      cases hm : dMem am._accounts i with
      | true =>
        simp only [hm, if_true]
        rw [dGet_dDel, if_neg hne]
        exact hinv uid h
      | false =>
        simp only [hm, Bool.false_eq_true, if_false]
        exact hinv uid h
  · intro am i h
    simp [AccountManager.userdel, h]
  · intro am k s am2 hinv hok uid h
    unfold AccountManager.set_encrypt_key at hok
    cases hw : pyTruthy am._who with
    | false => simp [hw] at hok
    | true =>
      simp only [hw, if_true] at hok
      cases hacct : dGet am._accounts (am._who.getD 0) with
      | none => simp [hacct] at hok
      | some account =>
        simp only [hacct, Except.ok.injEq] at hok
        subst hok
        simp only [] at h ⊢
        by_cases he : uid = am._who.getD 0
        · rw [he, dGet_dSet_self]
          rfl
        · rw [dGet_dSet_ne _ _ _ _ he]
          exact hinv uid h
  · intro am r am2 hinv hok uid h
    unfold AccountManager.cd at hok
    cases hw : pyTruthy am._who with
    | false => simp [hw] at hok
    | true =>
      simp only [hw, if_true] at hok
      cases hacct : dGet am._accounts (am._who.getD 0) with
      | none => simp [hacct] at hok
      | some account =>
        simp only [hacct, Except.ok.injEq] at hok
        subst hok
        by_cases he : uid = am._who.getD 0
        · rw [he, dGet_dSet_self]
          rfl
        · rw [dGet_dSet_ne _ _ _ _ he]
          exact hinv uid h
  · intro fetch am given am2 rs hinv hok uid h
    unfold AccountManager.update at hok
    cases hres : resolveTarget given am._who with
    | none =>
      rw [hres] at hok
      simp at hok
      obtain ⟨h1, h2⟩ := hok
      subst h1
      exact hinv uid h
    | some t =>
      rw [hres] at hok
      cases hacct : dGet am._accounts t with
      | none =>
        simp [hacct] at hok
        obtain ⟨h1, h2⟩ := hok
        subst h1
        exact hinv uid h
      | some account =>
        simp only [hacct] at hok
        cases hauth : account.user.auth.isSome with
        | false => simp [hauth] at hok
        | true =>
          simp only [hauth, if_true] at hok
          cases hfetch : fetch t with
          | error e => simp [hfetch] at hok
          | ok user =>
            simp only [hfetch, Except.ok.injEq, Prod.mk.injEq] at hok
            obtain ⟨h1, h2⟩ := hok
            subst h1
            by_cases he : uid = t
            · rw [he, dGet_dSet_self]
              rfl
            · rw [dGet_dSet_ne _ _ _ _ he]
              exact hinv uid h

/-- C7 witness: every preserved operation of the invariant theorem applied
to concrete registries, with all hypotheses discharged. -/
theorem c7_active_id_invariant_witness :
    (dGet ((AccountManager.mk [(1, sampleAcctA)] (some 1) none).useradd
      sampleUserB)._accounts 1).isSome = true ∧
    (dGet (AccountManager.mk [(1, sampleAcctA)] (some 1) none)._accounts
      1).isSome = true ∧
    AccountManager.su (AccountManager.mk [] none none) 3 =
      .error (.assertionError "No user") ∧
    (dGet ((AccountManager.mk [(1, sampleAcctA)] (some 1) none).userdel
      2)._accounts 1).isSome = true ∧
    ((AccountManager.mk [(1, sampleAcctA)] (some 1) none).userdel 1)._who =
      none ∧
    (dGet (AccountManager.mk (dSet [(1, sampleAcctA)] 1
      (sampleAcctA.replaceEncrypt (some "k") none)) (some 1)
      none)._accounts 1).isSome = true ∧
    (dGet (AccountManager.mk (dSet [(1, sampleAcctA)] 1
      (sampleAcctA.replacePwd (join_path sampleAcctA.pwd "x"))) (some 1)
      none)._accounts 1).isSome = true ∧
    (dGet (AccountManager.mk (dSet [(5, cexAcct)] 5
      (cexAcct.replaceUser cexUserNew)) (some 5) none)._accounts
      5).isSome = true :=
  ⟨c7_active_id_invariant.2.1 (AccountManager.mk [(1, sampleAcctA)] (some 1)
      none) sampleUserB (by intro uid h; simp at h; subst h; rfl) 1 rfl,
   c7_active_id_invariant.2.2.1 (AccountManager.mk [(1, sampleAcctA)] none
      none) 1 (AccountManager.mk [(1, sampleAcctA)] (some 1) none)
      (by intro uid h; simp at h) rfl 1 rfl,
   c7_active_id_invariant.2.2.2.1 (AccountManager.mk [] none none) 3 rfl,
   c7_active_id_invariant.2.2.2.2.1 (AccountManager.mk [(1, sampleAcctA)]
      (some 1) none) 2 (by intro uid h; simp at h; subst h; rfl) 1 rfl,
   c7_active_id_invariant.2.2.2.2.2.1 (AccountManager.mk [(1, sampleAcctA)]
      (some 1) none) 1 rfl,
   c7_active_id_invariant.2.2.2.2.2.2.1 (AccountManager.mk
      [(1, sampleAcctA)] (some 1) none) (some "k") none (AccountManager.mk
      (dSet [(1, sampleAcctA)] 1 (sampleAcctA.replaceEncrypt (some "k")
      none)) (some 1) none) (by intro uid h; simp at h; subst h; rfl) rfl 1
      rfl,
   c7_active_id_invariant.2.2.2.2.2.2.2.1 (AccountManager.mk
      [(1, sampleAcctA)] (some 1) none) "x" (AccountManager.mk
      (dSet [(1, sampleAcctA)] 1 (sampleAcctA.replacePwd (join_path
      sampleAcctA.pwd "x"))) (some 1) none)
      (by intro uid h; simp at h; subst h; rfl) rfl 1 rfl,
   c7_active_id_invariant.2.2.2.2.2.2.2.2 cexFetch (AccountManager.mk
      [(5, cexAcct)] (some 5) none) none (AccountManager.mk
      (dSet [(5, cexAcct)] 5 (cexAcct.replaceUser cexUserNew)) (some 5)
      none) [5] (by intro uid h; simp at h; subst h; rfl) rfl 5 rfl⟩

/-! ### Positional lemmas for the migration proofs -/

theorem dMem_keys {κ α : Type} [DecidableEq κ] (d : List (κ × α)) (k : κ) :
    dMem d k = true ↔ k ∈ d.map Prod.fst := by
  induction d with
  | nil => simp [dMem]
  | cons hd tl ih =>
    obtain ⟨k0, v0⟩ := hd
    by_cases hk : k0 = k <;> simp [dMem, hk, ih]
    exact fun h => absurd h.symm hk

theorem dGet_append_left {κ α : Type} [DecidableEq κ] (d1 d2 : List (κ × α))
    (k : κ) (h : dMem d1 k = true) : dGet (d1 ++ d2) k = dGet d1 k := by
  rw [dGet_append]
  cases hg : dGet d1 k with
  | none =>
    rw [dMem_eq_isSome, hg] at h
    simp at h
  | some v => rfl

theorem dGet_middle {κ α : Type} [DecidableEq κ] (pre post : List (κ × α))
    (uid : κ) (acct : α) (hpreu : dMem pre uid = false) :
    dGet (pre ++ (uid, acct) :: post) uid = some acct := by
  rw [dGet_append, dGet_of_not_mem _ _ hpreu]
  simp [dGet]

theorem dMem_middle {κ α : Type} [DecidableEq κ] (pre post : List (κ × α))
    (uid : κ) (acct : α) :
    dMem (pre ++ (uid, acct) :: post) uid = true := by
  rw [dMem_append]
  simp [dMem]

theorem dSet_middle {κ α : Type} [DecidableEq κ] (pre post : List (κ × α))
    (uid : κ) (acct v : α) (hpreu : dMem pre uid = false)
    (hpostu : dMem post uid = false) :
    dSet (pre ++ (uid, acct) :: post) uid v = pre ++ (uid, v) :: post := by
  unfold dSet
  rw [dMem_middle]
  simp only [if_true]
  rw [dReplace_append, dReplace_of_not_mem _ _ _ hpreu]
  simp [dReplace, dReplace_of_not_mem _ _ _ hpostu]

/-! ### C1 -/

/-- C1: `load` never raises (it is a total function of this embedding); when
there is no file at the expanded path or the file holds bytes that fail to
deserialize, it returns a brand-new empty Registry — no accounts, no active
identifier — whose storage path is bound to the (user-expanded) load path,
and the filesystem is untouched; for a path unaffected by user expansion the
storage path is literally the given path. -/
theorem c1_load_failure_returns_empty (fetch : Int → Except PyErr PcsUser)
    (home : String) (fs : FS) (path : String)
    (hfail : dGet fs (expanduser home path) = none ∨
      dGet fs (expanduser home path) = some FileContent.garbage) :
    AccountManager.load_data fetch home fs path =
      (AccountManager.init (some (expanduser home path)), fs, []) ∧
    (expanduser home path = path →
      (AccountManager.load_data fetch home fs path).1._data_path =
        some path) := by
  have hm : AccountManager.load_data fetch home fs path =
      (AccountManager.init (some (expanduser home path)), fs, []) := by
    cases hfail with
    | inl h => simp [AccountManager.load_data, h]
    | inr h => simp [AccountManager.load_data, h]
  refine ⟨hm, fun he => ?_⟩
  rw [hm]
  simp [AccountManager.init, he]

/-- C1 witness: a missing file and a garbage file, both on concrete
filesystems. -/
theorem c1_load_failure_returns_empty_witness :
    AccountManager.load_data cexFetch "/h" [] "/tmp/x" =
      (AccountManager.init (some (expanduser "/h" "/tmp/x")), [], []) ∧
    (AccountManager.load_data cexFetch "/h" [] "/tmp/x").1._data_path =
      some "/tmp/x" ∧
    AccountManager.load_data cexFetch "/h" [("/g", FileContent.garbage)]
        "/g" =
      (AccountManager.init (some (expanduser "/h" "/g")),
        [("/g", FileContent.garbage)], []) :=
  ⟨(c1_load_failure_returns_empty cexFetch "/h" [] "/tmp/x" (Or.inl rfl)).1,
   (c1_load_failure_returns_empty cexFetch "/h" [] "/tmp/x" (Or.inl rfl)).2
      (by decide),
   (c1_load_failure_returns_empty cexFetch "/h" [("/g", FileContent.garbage)]
      "/g" (Or.inr (by decide))).1⟩

/-! ### C2 -/

/-- C2 counterexample: a Registry with no stored storage path (and no
legacy-shaped account) does not round-trip: `save("/a")` then `load("/a")`
yields a Registry whose storage path is the process default, not the saved
`none` — the migration pass backfills it before re-saving. -/
theorem c2_save_load_roundtrip_cex :
    AccountManager.save (AccountManager.init none) (some "/a") "/h" [] =
      .ok [("/a", FileContent.pickled (AccountManager.init none))] ∧
    (AccountManager.load_data cexFetch "/h"
        [("/a", FileContent.pickled (AccountManager.init none))]
        "/a").1._data_path = some ACCOUNT_DATA_PATH ∧
    (AccountManager.init none)._data_path = none ∧
    some ACCOUNT_DATA_PATH ≠ (none : Option String) := by
  exact ⟨by decide, by decide, rfl, by decide⟩

/-- C2 amended: `save` then `load` on the same path round-trips `accounts`,
`activeId` and `storagePath` exactly when no account is legacy-shaped AND
the saved Registry's stored storage path equals the (nonempty, tilde-free)
path being saved to — otherwise the migration pass backfills the storage
path with the process default before re-saving, breaking exactness. -/
theorem c2_save_load_roundtrip (fetch : Int → Except PyErr PcsUser)
    (am : AccountManager) (home p : String) (fs : FS)
    (hclean : ∀ ka ∈ am._accounts, ka.2.user.products_is_dict = false)
    (hdp : am._data_path = some p) (hp : p ≠ "")
    (hexp : expanduser home p = p) :
    ∃ fs2, AccountManager.save am (some p) home fs = .ok fs2 ∧
      AccountManager.load_data fetch home fs2 p =
        (am, fsWrite fs2 p (FileContent.pickled am), []) := by
  have htr : pyTruthyS (some p) = true := by simp [pyTruthyS, hp]
  refine ⟨fsWrite fs p (FileContent.pickled am), ?_, ?_⟩
  · simp [AccountManager.save, htr, hexp]
  · have hscan : compatScan fetch (am._accounts.map Prod.fst) am =
        .ok (am, []) :=
      compatScan_clean fetch _ am
        (fun k _ => legacyB_false_of_clean am hclean k)
    simp [AccountManager.load_data, fsWrite, dGet, _compat_account_manager,
      _compat_v0_5_9, hexp, hscan, hdp, pyTruthyS, hp, AccountManager.save]

/-- C2 witness: the round-trip on a concrete one-account registry whose
stored path is the save path. -/
theorem c2_save_load_roundtrip_witness :
    ∃ fs2,
      AccountManager.save
        (AccountManager.mk [(1, sampleAcctA)] (some 1) (some "/a"))
        (some "/a") "/h" [] = .ok fs2 ∧
      AccountManager.load_data cexFetch "/h" fs2 "/a" =
        (AccountManager.mk [(1, sampleAcctA)] (some 1) (some "/a"),
          fsWrite fs2 "/a" (FileContent.pickled
            (AccountManager.mk [(1, sampleAcctA)] (some 1) (some "/a"))),
          []) :=
  c2_save_load_roundtrip cexFetch
    (AccountManager.mk [(1, sampleAcctA)] (some 1) (some "/a")) "/h" "/a" []
    (by decide) rfl (by decide) (by decide)

/-! ### Shared facts about the migration pass -/

/-- The legacy test at a key whose first binding sits after a prefix that
does not contain it. -/
theorem legacyB_middle (am : AccountManager) (pre post : List (Int × Account))
    (uid : Int) (acct : Account)
    (haccts : am._accounts = pre ++ (uid, acct) :: post)
    (hpreu : dMem pre uid = false) :
    legacyB am uid = acct.user.products_is_dict := by
  unfold legacyB
  rw [haccts, dGet_middle _ _ _ _ hpreu]

/-- Keys whose bindings lie in a clean prefix of the accounts list are not
legacy-shaped. -/
theorem legacyB_false_on_front (am : AccountManager)
    (pre rest : List (Int × Account)) (haccts : am._accounts = pre ++ rest)
    (hpre : ∀ ka ∈ pre, ka.2.user.products_is_dict = false) :
    ∀ k ∈ pre.map Prod.fst, legacyB am k = false := by
  intro k hk
  have hmemk : dMem pre k = true := (dMem_keys pre k).mpr hk
  unfold legacyB
  rw [haccts, dGet_append_left pre rest k hmemk]
  cases hg : dGet pre k with
  | none => rfl
  | some a => exact hpre (k, a) (dGet_mem _ _ _ hg)

/-- Helper: `update` on a registered, truthy id with present auth and a successful
fetch: only the `user` field of that account is replaced. -/
theorem update_registered_ok (fetch : Int → Except PyErr PcsUser)
    (am : AccountManager) (uid : Int) (acct : Account) (u : PcsUser)
    (hu0 : uid ≠ 0) (hget : dGet am._accounts uid = some acct)
    (hauth : acct.user.auth.isSome = true) (hfetch : fetch uid = .ok u) :
    AccountManager.update fetch am (some uid) =
      .ok ({ am with
               _accounts := dSet am._accounts uid (acct.replaceUser u) },
        [uid]) := by
  have hres : resolveTarget (some uid) am._who = some uid := by
    simp [resolveTarget, pyTruthy, hu0]
  simp [AccountManager.update, hres, hget, hauth, hfetch]

/-- Helper: `update` on a registered, truthy id with present auth and a failing
fetch: the error propagates out of `update`. -/
theorem update_registered_err (fetch : Int → Except PyErr PcsUser)
    (am : AccountManager) (uid : Int) (acct : Account) (e : PyErr)
    (hu0 : uid ≠ 0) (hget : dGet am._accounts uid = some acct)
    (hauth : acct.user.auth.isSome = true)
    (hfetch : fetch uid = .error e) :
    AccountManager.update fetch am (some uid) = .error e := by
  have hres : resolveTarget (some uid) am._who = some uid := by
    simp [resolveTarget, pyTruthy, hu0]
  simp [AccountManager.update, hres, hget, hauth, hfetch]

/-! ### C4 -/

/-- C4 counterexample: deserialization succeeds (the file holds a pickled
registry with one legacy-shaped account), the migration re-fetch fails with
a network error — but `load` returns normally with a brand-new empty
Registry bound to the path: the error is swallowed by the catch-all, not
propagated. -/
theorem c4_network_error_cex :
    dGet [("/d", FileContent.pickled (AccountManager.mk
        [(7, Account.mk (PcsUser.mk 7 (some sampleAuth) true) "/w" none
          none)] none (some "/d")))] "/d" =
      some (FileContent.pickled (AccountManager.mk
        [(7, Account.mk (PcsUser.mk 7 (some sampleAuth) true) "/w" none
          none)] none (some "/d"))) ∧
    AccountManager.load_data (fun _ => .error .networkError) "/h"
        [("/d", FileContent.pickled (AccountManager.mk
          [(7, Account.mk (PcsUser.mk 7 (some sampleAuth) true) "/w" none
            none)] none (some "/d")))] "/d" =
      (AccountManager.init (some "/d"),
        [("/d", FileContent.pickled (AccountManager.mk
          [(7, Account.mk (PcsUser.mk 7 (some sampleAuth) true) "/w" none
            none)] none (some "/d")))], []) := by
  exact ⟨by decide, by decide⟩

/-- C4 amended: when deserialization succeeds and the migration pass's
re-fetch of a legacy-shaped account (nonzero id, auth present) raises a
network error, `load` catches it like every other failure and returns a
brand-new empty Registry bound to the expanded path, with the filesystem
untouched — the error is NOT propagated to the caller. -/
theorem c4_network_error_caught (fetch : Int → Except PyErr PcsUser)
    (home path : String) (fs : FS) (am : AccountManager)
    (pre post : List (Int × Account)) (uid : Int) (acct : Account)
    (e : PyErr) (haccts : am._accounts = pre ++ (uid, acct) :: post)
    (hpre : ∀ ka ∈ pre, ka.2.user.products_is_dict = false)
    (hpreu : dMem pre uid = false)
    (hlegacy : acct.user.products_is_dict = true) (hu0 : uid ≠ 0)
    (hauth : acct.user.auth.isSome = true)
    (hfetch : fetch uid = .error e)
    (hfs : dGet fs (expanduser home path) =
      some (FileContent.pickled am)) :
    AccountManager.load_data fetch home fs path =
      (AccountManager.init (some (expanduser home path)), fs, []) := by
  have hget : dGet am._accounts uid = some acct := by
    rw [haccts]
    exact dGet_middle _ _ _ _ hpreu
  have hupd : AccountManager.update fetch am (some uid) = .error e :=
    update_registered_err fetch am uid acct e hu0 hget hauth hfetch
  have hlegB : legacyB am uid = true := by
    rw [legacyB_middle am pre post uid acct haccts hpreu]
    exact hlegacy
  have hscan : compatScan fetch (am._accounts.map Prod.fst) am =
      .error e := by
    rw [haccts]
    simp only [List.map_append, List.map_cons]
    rw [compatScan_skips_clean_front fetch _ _ am
      (legacyB_false_on_front am pre _ haccts hpre)]
    simp only [compatScan, hlegB, if_true]
    rw [hupd]
  have hcompat : _compat_account_manager fetch home am fs = .error e := by
    unfold _compat_account_manager _compat_v0_5_9
    rw [hscan]
  simp [AccountManager.load_data, hfs, hcompat]

/-- C4 witness: the amended behavior on the concrete one-account legacy
registry. -/
theorem c4_network_error_caught_witness :
    AccountManager.load_data (fun _ => .error .networkError) "/h"
        [("/d", FileContent.pickled (AccountManager.mk
          [(7, Account.mk (PcsUser.mk 7 (some sampleAuth) true) "/w" none
            none)] none (some "/d")))] "/d" =
      (AccountManager.init (some (expanduser "/h" "/d")),
        [("/d", FileContent.pickled (AccountManager.mk
          [(7, Account.mk (PcsUser.mk 7 (some sampleAuth) true) "/w" none
            none)] none (some "/d")))], []) :=
  c4_network_error_caught (fun _ => .error .networkError) "/h" "/d"
    [("/d", FileContent.pickled (AccountManager.mk
      [(7, Account.mk (PcsUser.mk 7 (some sampleAuth) true) "/w" none
        none)] none (some "/d")))]
    (AccountManager.mk [(7, Account.mk (PcsUser.mk 7 (some sampleAuth) true)
      "/w" none none)] none (some "/d"))
    [] [] 7 (Account.mk (PcsUser.mk 7 (some sampleAuth) true) "/w" none
      none) .networkError rfl (by decide) rfl (by decide) (by decide) rfl
    rfl (by decide)

/-! ### C3 -/

/-- C3 counterexample: a persisted Registry whose single legacy-shaped
account is registered under the identifier 0. The claim says one `load`
triggers exactly one refresh for it and rewrites its identity; in fact the
migration loop calls `update(0)`, whose `user_id or self._who` treats 0 as
omitted — zero refreshes happen, the account stays legacy-shaped, yet the
pass still re-saves. -/
theorem c3_migration_zero_cex :
    AccountManager.load_data cexFetch "/h"
        [("/d", FileContent.pickled (AccountManager.mk
          [(0, Account.mk (PcsUser.mk 0 (some sampleAuth) true) "/" none
            none)] none (some "/d")))] "/d" =
      (AccountManager.mk [(0, Account.mk (PcsUser.mk 0 (some sampleAuth)
          true) "/" none none)] none (some "/d"),
        fsWrite [("/d", FileContent.pickled (AccountManager.mk
          [(0, Account.mk (PcsUser.mk 0 (some sampleAuth) true) "/" none
            none)] none (some "/d")))] "/d"
          (FileContent.pickled (AccountManager.mk
            [(0, Account.mk (PcsUser.mk 0 (some sampleAuth) true) "/" none
              none)] none (some "/d"))),
        []) ∧
    legacyB (AccountManager.mk [(0, Account.mk (PcsUser.mk 0
        (some sampleAuth) true) "/" none none)] none (some "/d")) 0 =
      true := by
  exact ⟨by decide, by decide⟩

/-- C3 amended: for a persisted Registry whose sole legacy-shaped account
has a NONZERO identifier (and present auth), stored storage path equal to
the nonempty tilde-free load path, and a fetch that succeeds with a
current-shaped record: one `load` triggers exactly one refresh for that
account (and none for the others), rewrites only its identity field to the
current shape (working directory, encryption key and salt preserved), and
re-saves; a second immediate `load` of the resulting file triggers zero
further refreshes but still re-saves the Registry. -/
theorem c3_migration_single_legacy (fetch : Int → Except PyErr PcsUser)
    (home p : String) (fs : FS) (am : AccountManager)
    (pre post : List (Int × Account)) (uid : Int) (acct : Account)
    (u : PcsUser) (haccts : am._accounts = pre ++ (uid, acct) :: post)
    (hpre : ∀ ka ∈ pre, ka.2.user.products_is_dict = false)
    (hpost : ∀ ka ∈ post, ka.2.user.products_is_dict = false)
    (hpreu : dMem pre uid = false) (hpostu : dMem post uid = false)
    (hlegacy : acct.user.products_is_dict = true) (hu0 : uid ≠ 0)
    (hauth : acct.user.auth.isSome = true) (hfetch : fetch uid = .ok u)
    (hcur : u.products_is_dict = false)
    (hdp : am._data_path = some p) (hp : p ≠ "")
    (hexp : expanduser home p = p)
    (hfs : dGet fs p = some (FileContent.pickled am)) :
    AccountManager.load_data fetch home fs p =
      ({ am with _accounts := pre ++ (uid, acct.replaceUser u) :: post },
        fsWrite fs p (FileContent.pickled
          { am with _accounts := pre ++ (uid, acct.replaceUser u) :: post }),
        [uid]) ∧
    AccountManager.load_data fetch home
        (fsWrite fs p (FileContent.pickled
          { am with _accounts := pre ++ (uid, acct.replaceUser u) :: post }))
        p =
      ({ am with _accounts := pre ++ (uid, acct.replaceUser u) :: post },
        fsWrite (fsWrite fs p (FileContent.pickled
          { am with
              _accounts := pre ++ (uid, acct.replaceUser u) :: post })) p
          (FileContent.pickled
            { am with
                _accounts := pre ++ (uid, acct.replaceUser u) :: post }),
        []) ∧
    (acct.replaceUser u).user.products_is_dict = false ∧
    (acct.replaceUser u).pwd = acct.pwd ∧
    (acct.replaceUser u).encrypt_key = acct.encrypt_key ∧
    (acct.replaceUser u).salt = acct.salt := by
  have hnew : (acct.replaceUser u).user.products_is_dict = false := by
    simp [Account.replaceUser, hcur]
  have hclean2 : ∀ ka ∈ pre ++ (uid, acct.replaceUser u) :: post,
      ka.2.user.products_is_dict = false := by
    intro ka hka
    rcases List.mem_append.mp hka with hka1 | hka2
    · exact hpre ka hka1
    · rcases List.mem_cons.mp hka2 with hka3 | hka4
      · rw [hka3]
        exact hnew
      · exact hpost ka hka4
  have hget : dGet am._accounts uid = some acct := by
    rw [haccts]
    exact dGet_middle _ _ _ _ hpreu
  have hupd : AccountManager.update fetch am (some uid) =
      .ok ({ am with
               _accounts := pre ++ (uid, acct.replaceUser u) :: post },
        [uid]) := by
    rw [update_registered_ok fetch am uid acct u hu0 hget hauth hfetch,
      haccts, dSet_middle pre post uid acct _ hpreu hpostu]
  have hlegB : legacyB am uid = true := by
    rw [legacyB_middle am pre post uid acct haccts hpreu]
    exact hlegacy
  have hcleanRec : ∀ ka ∈ ({ am with
      _accounts := pre ++ (uid, acct.replaceUser u) :: post } :
      AccountManager)._accounts, ka.2.user.products_is_dict = false :=
    hclean2
  have hscan : compatScan fetch (am._accounts.map Prod.fst) am =
      .ok ({ am with
               _accounts := pre ++ (uid, acct.replaceUser u) :: post },
        [uid]) := by
    rw [haccts]
    simp only [List.map_append, List.map_cons]
    rw [compatScan_skips_clean_front fetch _ _ am
      (legacyB_false_on_front am pre _ haccts hpre)]
    simp [compatScan, hlegB, hupd,
      compatScan_clean fetch (post.map Prod.fst) _
        (fun k _ => legacyB_false_of_clean _ hcleanRec k)]
  have hcompat : _compat_account_manager fetch home am fs =
      .ok ({ am with
               _accounts := pre ++ (uid, acct.replaceUser u) :: post },
        fsWrite fs p (FileContent.pickled
          { am with
              _accounts := pre ++ (uid, acct.replaceUser u) :: post }),
        [uid]) := by
    unfold _compat_account_manager _compat_v0_5_9
    rw [hscan]
    simp [hdp, pyTruthyS, hp, hfs, AccountManager.save, hexp, fsWrite]
  have hload1 : AccountManager.load_data fetch home fs p =
      ({ am with _accounts := pre ++ (uid, acct.replaceUser u) :: post },
        fsWrite fs p (FileContent.pickled
          { am with
              _accounts := pre ++ (uid, acct.replaceUser u) :: post }),
        [uid]) := by
    simp [AccountManager.load_data, hexp, hfs, hcompat]
  have hfs2 : dGet (fsWrite fs p (FileContent.pickled
      { am with _accounts := pre ++ (uid, acct.replaceUser u) :: post })) p =
      some (FileContent.pickled
        { am with
            _accounts := pre ++ (uid, acct.replaceUser u) :: post }) := by
    simp [fsWrite, dGet]
  have hscan2 : compatScan fetch
      (({ am with
           _accounts :=
             pre ++ (uid, acct.replaceUser u) :: post } :
        AccountManager)._accounts.map Prod.fst)
      { am with _accounts := pre ++ (uid, acct.replaceUser u) :: post } =
      .ok ({ am with
               _accounts := pre ++ (uid, acct.replaceUser u) :: post },
        []) :=
    compatScan_clean fetch _ _
      (fun k _ => legacyB_false_of_clean _ hcleanRec k)
  have hcompat2 : _compat_account_manager fetch home
      { am with _accounts := pre ++ (uid, acct.replaceUser u) :: post }
      (fsWrite fs p (FileContent.pickled
        { am with
            _accounts := pre ++ (uid, acct.replaceUser u) :: post })) =
      .ok ({ am with
               _accounts := pre ++ (uid, acct.replaceUser u) :: post },
        fsWrite (fsWrite fs p (FileContent.pickled
          { am with
              _accounts := pre ++ (uid, acct.replaceUser u) :: post })) p
          (FileContent.pickled
            { am with
                _accounts := pre ++ (uid, acct.replaceUser u) :: post }),
        []) := by
    unfold _compat_account_manager _compat_v0_5_9
    rw [hscan2]
    simp [hdp, pyTruthyS, hp, dGet, fsWrite, AccountManager.save, hexp]
  have hload2 : AccountManager.load_data fetch home
      (fsWrite fs p (FileContent.pickled
        { am with
            _accounts := pre ++ (uid, acct.replaceUser u) :: post })) p =
      ({ am with _accounts := pre ++ (uid, acct.replaceUser u) :: post },
        fsWrite (fsWrite fs p (FileContent.pickled
          { am with
              _accounts := pre ++ (uid, acct.replaceUser u) :: post })) p
          (FileContent.pickled
            { am with
                _accounts := pre ++ (uid, acct.replaceUser u) :: post }),
        []) := by
    simp [AccountManager.load_data, hexp, hfs2, hcompat2]
  exact ⟨hload1, hload2, hnew, rfl, rfl, rfl⟩

/-- A legacy-shaped user with id 7 (`products` stored as a dict). -/
def legUser7 : PcsUser := PcsUser.mk 7 (some sampleAuth) true

/-- The current-shaped record a refresh returns for id 7. -/
def curUser7 : PcsUser := PcsUser.mk 7 (some sampleAuth) false

/-- A legacy-shaped account with local session state. -/
def legAcct7 : Account := Account.mk legUser7 "/w" (some "k") (some "s")

/-- A persisted registry holding exactly the one legacy-shaped account. -/
def legAm7 : AccountManager :=
  AccountManager.mk [(7, legAcct7)] none (some "/d")

/-- A network oracle answering the current-shaped record. -/
def fetch7 : Int → Except PyErr PcsUser := fun _ => .ok curUser7

/-- C3 witness: the amended migration behavior on the concrete registry —
first load refreshes exactly id 7 and rewrites it to current shape, second
load refreshes nothing but writes the file again. -/
theorem c3_migration_single_legacy_witness :
    AccountManager.load_data fetch7 "/h"
        [("/d", FileContent.pickled legAm7)] "/d" =
      ({ legAm7 with _accounts := [(7, legAcct7.replaceUser curUser7)] },
        fsWrite [("/d", FileContent.pickled legAm7)] "/d"
          (FileContent.pickled
            { legAm7 with
                _accounts := [(7, legAcct7.replaceUser curUser7)] }),
        [7]) ∧
    (legAcct7.replaceUser curUser7).user.products_is_dict = false ∧
    AccountManager.load_data fetch7 "/h"
        (fsWrite [("/d", FileContent.pickled legAm7)] "/d"
          (FileContent.pickled
            { legAm7 with
                _accounts := [(7, legAcct7.replaceUser curUser7)] })) "/d" =
      ({ legAm7 with _accounts := [(7, legAcct7.replaceUser curUser7)] },
        fsWrite (fsWrite [("/d", FileContent.pickled legAm7)] "/d"
          (FileContent.pickled
            { legAm7 with
                _accounts := [(7, legAcct7.replaceUser curUser7)] })) "/d"
          (FileContent.pickled
            { legAm7 with
                _accounts := [(7, legAcct7.replaceUser curUser7)] }),
        []) :=
  ⟨(c3_migration_single_legacy fetch7 "/h" "/d"
      [("/d", FileContent.pickled legAm7)] legAm7 [] [] 7 legAcct7 curUser7
      rfl (by decide) (by decide) rfl rfl rfl (by decide) rfl rfl rfl rfl
      (by decide) (by decide) (by decide)).1,
   (c3_migration_single_legacy fetch7 "/h" "/d"
      [("/d", FileContent.pickled legAm7)] legAm7 [] [] 7 legAcct7 curUser7
      rfl (by decide) (by decide) rfl rfl rfl (by decide) rfl rfl rfl rfl
      (by decide) (by decide) (by decide)).2.2.1,
   (c3_migration_single_legacy fetch7 "/h" "/d"
      [("/d", FileContent.pickled legAm7)] legAm7 [] [] 7 legAcct7 curUser7
      rfl (by decide) (by decide) rfl rfl rfl (by decide) rfl rfl rfl rfl
      (by decide) (by decide) (by decide)).2.1⟩
